import Mathlib

/-!
Shallow embedding of the interactive Mandelbrot viewer (`src/main.cpp`)

The program is a single SDL2/OpenGL frame loop.  The parts relevant to the
behavioural claims are:

* the camera state (`zoom`, `desired_zoom`, `offset_x`, `offset_y`) and the
  control flags (`up`, `down`, `left`, `right`, `escape`),
* the event-draining `switch` that updates those from SDL events,
* the post-event update phase: the escape/quit check, the four clamped pan
  integrations, and the fixed-timestep zoom-smoothing `while` loop,
* the per-frame draw phase with its `dirty`-guarded viewport re-application.

`float` arithmetic in the source is modelled exactly over `ℚ` (the literals
`1.025f`, `0.01f`, `30.0f`, `1/60.0f`, `1e-5f`, `0.00001f`, `100.0f`,
`16.0f` become the rationals they denote); GPU and SDL calls are opaque
effects, recorded only where a claim observes them (the viewport
re-application and the per-frame uniform upload).
-/

namespace Mandelbrot

/-- `std::clamp(v, lo, hi)`: `lo` if `v < lo`, `hi` if `hi < v`, else `v`. -/
def clamp (v lo hi : ℚ) : ℚ := if v < lo then lo else if hi < v then hi else v

/-- The SDL scancodes the key `switch` at `main.cpp:223-246` distinguishes.
`other` stands for every scancode that falls into its `default:` branch. -/
inductive Scancode where
  | escKey | w | upArrow | s | downArrow | a | leftArrow | d | rightArrow | other
deriving DecidableEq, Repr

/-- The SDL events the event `switch` at `main.cpp:214-272` distinguishes.
`key c p` covers both `SDL_KEYDOWN` and `SDL_KEYUP`, with
`p = (ev.key.state == SDL_PRESSED)`; `windowResized` is an `SDL_WINDOWEVENT`
with `ev.window.event == SDL_WINDOWEVENT_RESIZED` and `windowOther` any other
`SDL_WINDOWEVENT`; `mouseWheel y` carries `ev.wheel.y`; `other` is the
`default:` branch. -/
inductive Event where
  | quitSignal
  | key (code : Scancode) (pressed : Bool)
  | mouseButtonUp (button : Nat)
  | windowResized
  | windowOther
  | mouseWheel (y : Int)
  | other
deriving DecidableEq, Repr

/-- The five control booleans destructured from `controls` at
`main.cpp:179-180`. -/
structure Controls where
  up : Bool
  down : Bool
  left : Bool
  right : Bool
  escape : Bool
deriving DecidableEq, Repr

/-- The camera variables declared at `main.cpp:175-178`. -/
structure Camera where
  zoom : ℚ
  desired_zoom : ℚ
  offset_x : ℚ
  offset_y : ℚ
deriving DecidableEq, Repr

/-- The mutable loop state of `main`: camera, controls, `quit`, `dirty`, the
cached drawable size `width`/`height`, and the frame-time accumulator
`acc`. -/
structure LoopState where
  cam : Camera
  controls : Controls
  quit : Bool
  dirty : Bool
  width : Int
  height : Int
  acc : ℚ
deriving DecidableEq, Repr

/-- The loop state just before the first `while (!quit)` iteration
(`main.cpp:175-188`): default camera, no keys held, `quit = false`,
`dirty = true` ("Assume the viewport is dirty on the first frame."),
`acc = 0`, and the configured window size. -/
def initState (w h : Int) : LoopState :=
  { cam := { zoom := 1, desired_zoom := 1, offset_x := 0, offset_y := 0 }
    controls := { up := false, down := false, left := false, right := false, escape := false }
    quit := false
    dirty := true
    width := w
    height := h
    acc := 0 }

/-- One arm of the event `switch` at `main.cpp:214-272`.
The mouse-wheel arm mirrors
`std::clamp(((ev.wheel.y > 0) * (zoom / 1.025f)) + ((ev.wheel.y < 0) * (zoom * 1.025f)), 0.00001f, 100.0f)`,
with the `bool`-to-`float` products written as conditionals
(`1.025f = 41/40`, `0.00001f = 1/100000`). -/
def processEvent (st : LoopState) (e : Event) : LoopState :=
  match e with
  | .quitSignal => { st with quit := true }
  | .key code pressed =>
    match code with
    | .escKey => { st with controls := { st.controls with escape := pressed } }
    | .w | .upArrow => { st with controls := { st.controls with up := pressed } }
    | .s | .downArrow => { st with controls := { st.controls with down := pressed } }
    | .a | .leftArrow => { st with controls := { st.controls with left := pressed } }
    | .d | .rightArrow => { st with controls := { st.controls with right := pressed } }
    | .other => st
  | .mouseButtonUp b =>
    if b = 2 then
      { st with cam := { zoom := 1, desired_zoom := 1, offset_x := 0, offset_y := 0 } }
    else st
  | .windowResized => { st with dirty := true }
  | .windowOther => st
  | .mouseWheel y =>
    let dz := clamp ((if 0 < y then st.cam.zoom / (41/40) else 0) +
                     (if y < 0 then st.cam.zoom * (41/40) else 0)) (1/100000) 100
    { st with cam := { st.cam with desired_zoom := dz } }
  | .other => st

/-- The full event drain `while (SDL_PollEvent(&ev)) { switch ... }`
(`main.cpp:212-273`) applied to the queued events in order. -/
def processEvents (st : LoopState) (evs : List Event) : LoopState :=
  evs.foldl processEvent st

/-- The fixed timestep `ft = 1.0f / 60.0f` (`main.cpp:188`). -/
def ft : ℚ := 1 / 60

/-- The four held-key pan integrations at `main.cpp:278-293`, applied in
source order (up, down, left, right); `0.01f * zoom * 30.0f * dt` with
clamping to `[-16, 16]`. -/
def panStep (cam : Camera) (c : Controls) (dt : ℚ) : Camera :=
  let cam := if c.up then
    { cam with offset_y := clamp (cam.offset_y + (1/100) * cam.zoom * 30 * dt) (-16) 16 }
  else cam
  let cam := if c.down then
    { cam with offset_y := clamp (cam.offset_y - (1/100) * cam.zoom * 30 * dt) (-16) 16 }
  else cam
  let cam := if c.left then
    { cam with offset_x := clamp (cam.offset_x - (1/100) * cam.zoom * 30 * dt) (-16) 16 }
  else cam
  let cam := if c.right then
    { cam with offset_x := clamp (cam.offset_x + (1/100) * cam.zoom * 30 * dt) (-16) 16 }
  else cam
  cam

/-- One pass of the zoom-smoothing body at `main.cpp:296-299`:
`if (std::abs(zoom - desired_zoom) > 1e-5f) zoom = std::lerp(zoom, desired_zoom, 10.0f * ft)`,
with `std::lerp a b t = a + t * (b - a)`. -/
def smoothZoomStep (zoom desired : ℚ) : ℚ :=
  if 1/100000 < |zoom - desired| then zoom + (10 * ft) * (desired - zoom) else zoom

/-- The accumulator-drain loop `while (acc >= ft) { ...; acc -= ft; }`
(`main.cpp:294-301`), with an explicit iteration budget `fuel`.  Each pass
applies `smoothZoomStep` and consumes exactly one `ft` from `acc`; the loop
itself runs `⌊acc / ft⌋` times, which `drainFuel` below supplies. -/
def smoothLoop : Nat → ℚ → ℚ → ℚ → ℚ × ℚ
  | 0, zoom, _, acc => (zoom, acc)
  | n + 1, zoom, desired, acc =>
    if ft ≤ acc then smoothLoop n (smoothZoomStep zoom desired) desired (acc - ft)
    else (zoom, acc)

/-- The number of iterations of the `while (acc >= ft)` loop: the largest
`n` with `n * ft ≤ acc`. -/
def drainFuel (acc : ℚ) : Nat := (⌊acc / ft⌋).toNat

/-- The post-event update phase of one `Running` iteration
(`main.cpp:274-301`): the escape/quit check, then the pan integrations, then
the zoom-smoothing accumulator drain.  All three run unconditionally — the
source does not skip pan or smoothing when `quit` was just requested. -/
def postEventUpdate (st : LoopState) (dt : ℚ) : LoopState :=
  let st := if st.controls.escape then { st with quit := true } else st
  let cam := panStep st.cam st.controls dt
  let zacc := smoothLoop (drainFuel st.acc) cam.zoom cam.desired_zoom st.acc
  { st with cam := { cam with zoom := zacc.1 }, acc := zacc.2 }

/-- What the draw phase of one frame observably does: whether the viewport was
re-applied (`glViewport` under `if (dirty)`, `main.cpp:200-204`), and the
uniform values uploaded for the draw call (`main.cpp:205-210`). -/
structure FrameOutput where
  viewportApplied : Bool
  drawnWidth : Int
  drawnHeight : Int
  drawnZoom : ℚ
  drawnOffsetX : ℚ
  drawnOffsetY : ℚ
deriving DecidableEq, Repr

/-- The per-iteration environment the windowing system supplies: the wall
time `dt` elapsed since the previous iteration, the drawable size
`SDL_GL_GetDrawableSize` would report this frame, and the queued events
`SDL_PollEvent` drains. -/
structure FrameInput where
  dt : ℚ
  drawableW : Int
  drawableH : Int
  events : List Event
deriving DecidableEq, Repr

/-- One full `Running` iteration of the `while (!quit)` loop
(`main.cpp:193-302`): accumulate `dt` into `acc`; if `dirty`, re-query the
drawable size and re-apply the viewport (the source never clears `dirty`);
upload uniforms and draw; drain events; run the post-event update phase. -/
def frame (st : LoopState) (f : FrameInput) : LoopState × FrameOutput :=
  let st := { st with acc := st.acc + f.dt }
  let applied := st.dirty
  let st := if st.dirty then { st with width := f.drawableW, height := f.drawableH } else st
  let out : FrameOutput :=
    { viewportApplied := applied
      drawnWidth := st.width
      drawnHeight := st.height
      drawnZoom := st.cam.zoom
      drawnOffsetX := st.cam.offset_x
      drawnOffsetY := st.cam.offset_y }
  let st := processEvents st f.events
  (postEventUpdate st f.dt, out)

/-- The trace of frames the loop draws: `while (!quit)` checks `quit` before
each iteration, so a state with `quit = true` draws nothing further. -/
def run (st : LoopState) : List FrameInput → List FrameOutput
  | [] => []
  | f :: fs =>
    if st.quit then []
    else
      let r := frame st f
      r.2 :: run r.1 fs

/-- The loop state after feeding the given per-iteration inputs. -/
def runState (st : LoopState) : List FrameInput → LoopState
  | [] => st
  | f :: fs => if st.quit then st else runState (frame st f).1 fs

/-- The held state of a physical key implied by an event list: the press state of
the last key event for that scancode (`false` if none). -/
def keyHeld (code : Scancode) (evs : List Event) : Bool :=
  evs.foldl
    (fun h e =>
      match e with
      | .key c p => if c = code then p else h
      | _ => h)
    false

/-- The documented camera invariant: `zoom` and `desired_zoom` lie in
`[1e-5, 100]` and both pan offsets lie in `[-16, 16]`. -/
def CamInv (c : Camera) : Prop :=
  1/100000 ≤ c.zoom ∧ c.zoom ≤ 100 ∧
  1/100000 ≤ c.desired_zoom ∧ c.desired_zoom ≤ 100 ∧
  -16 ≤ c.offset_x ∧ c.offset_x ≤ 16 ∧
  -16 ≤ c.offset_y ∧ c.offset_y ≤ 16

/-- `n` consecutive passes of the zoom-smoothing body, each consuming one
`ft` of accumulator time (the effect on `zoom` of `n` iterations of the
`while (acc >= ft)` loop). -/
def smoothIter (z d : ℚ) : Nat → ℚ
  | 0 => z
  | n + 1 => smoothZoomStep (smoothIter z d n) d

/-- True when none of the four directional flags is held. -/
def noDirectionsHeld (c : Controls) : Bool :=
  !c.up && !c.down && !c.left && !c.right

/-- True when every frame input carries an empty event queue. -/
def framesEventFree (fs : List FrameInput) : Bool :=
  fs.all (fun f => f.events.isEmpty)

/-- A loop state in which the up key and escape are both held: used to
evaluate the post-event update phase of an iteration that requests quit. -/
def escapePanState : LoopState :=
  { cam := { zoom := 1, desired_zoom := 1, offset_x := 0, offset_y := 0 }
    controls := { up := true, down := false, left := false, right := false, escape := true }
    quit := false
    dirty := false
    width := 800
    height := 600
    acc := 0 }

end Mandelbrot

namespace Mandelbrot

/-! ### Basic lemmas about the embedded operations -/

lemma le_clamp (v : ℚ) {lo hi : ℚ} (h : lo ≤ hi) : lo ≤ clamp v lo hi := by
  unfold clamp; split_ifs <;> linarith

lemma clamp_le (v : ℚ) {lo hi : ℚ} (h : lo ≤ hi) : clamp v lo hi ≤ hi := by
  unfold clamp; split_ifs <;> linarith

lemma postEventUpdate_controls (st : LoopState) (dt : ℚ) :
    (postEventUpdate st dt).controls = st.controls := by
  unfold postEventUpdate; split_ifs <;> rfl

lemma postEventUpdate_quit_of_escape {st : LoopState} (dt : ℚ)
    (h : st.controls.escape = true) : (postEventUpdate st dt).quit = true := by
  unfold postEventUpdate; rw [if_pos h]

lemma run_of_quit {st : LoopState} (h : st.quit = true) (fs : List FrameInput) :
    run st fs = [] := by
  cases fs with
  | nil => rfl
  | cons f fs => simp [run, h]

/-! ### C7 — middle-mouse release resets the camera -/

/-- C7: processing a middle-mouse-button (button 2) release event sets the
camera to exactly `zoom = 1`, `desired_zoom = 1`, `offset_x = 0`,
`offset_y = 0`, regardless of the prior camera state. -/
theorem middle_mouse_release_resets (st : LoopState) :
    (processEvent st (.mouseButtonUp 2)).cam =
      { zoom := 1, desired_zoom := 1, offset_x := 0, offset_y := 0 } := rfl

/-! ### C10 — a zero-delta wheel event clamps the target to the minimum -/

/-- C10: a mouse-wheel event with vertical delta exactly `0` sets
`desired_zoom` to `1/100000` (the lower clamp bound `0.00001f`) whatever the
current zoom: both direction terms of the update expression vanish, so the
pre-clamp value is `0`. -/
theorem zero_scroll_clamps_to_min (st : LoopState) :
    (processEvent st (.mouseWheel 0)).cam.desired_zoom = 1/100000 := by
  norm_num [processEvent, clamp]

/-! ### C2 — duplicate physical keys for one logical direction -/

/-- C2 counterexample: after pressing W, pressing Up-arrow, and releasing
only W, the Up-arrow key is still physically held, yet the `up` flag is
`false` — the handler stores the press state of the most recent event, so
"either key held" does not imply the flag is set. -/
theorem duplicate_key_release_counterexample :
    keyHeld Scancode.upArrow
        [Event.key Scancode.w true, Event.key Scancode.upArrow true,
         Event.key Scancode.w false] = true ∧
      (processEvents (initState 800 600)
          [Event.key Scancode.w true, Event.key Scancode.upArrow true,
           Event.key Scancode.w false]).controls.up = false :=
  ⟨rfl, rfl⟩

/-- C2 (amended): the two physical keys of each pair are handled by the same
case and produce the identical state transition, setting the logical flag to
the press state of the event; the flag therefore tracks the most recent key
event of the pair rather than the disjunction of the two held states. -/
theorem duplicate_keys_treated_identically (st : LoopState) (p : Bool) :
    processEvent st (.key .w p) = processEvent st (.key .upArrow p) ∧
    (processEvent st (.key .w p)).controls.up = p ∧
    processEvent st (.key .s p) = processEvent st (.key .downArrow p) ∧
    (processEvent st (.key .s p)).controls.down = p ∧
    processEvent st (.key .a p) = processEvent st (.key .leftArrow p) ∧
    (processEvent st (.key .a p)).controls.left = p ∧
    processEvent st (.key .d p) = processEvent st (.key .rightArrow p) ∧
    (processEvent st (.key .d p)).controls.right = p :=
  ⟨rfl, rfl, rfl, rfl, rfl, rfl, rfl, rfl⟩

/-! ### C6 — mouse-wheel scroll sets the zoom target -/

/-- C6: a mouse-wheel event leaves `zoom` and the pan offsets untouched and
sets only the target `desired_zoom`: dividing the current zoom by `1.025`
(`41/40`) for an upward scroll, multiplying by `1.025` for a downward one,
clamped to `[1/100000, 100]`; from the initial `zoom = 1` this yields
`40/41` for scroll-up and `41/40` for scroll-down. -/
theorem scroll_sets_zoom_target (st : LoopState) (y : Int) :
    (processEvent st (.mouseWheel y)).cam.zoom = st.cam.zoom ∧
    (processEvent st (.mouseWheel y)).cam.offset_x = st.cam.offset_x ∧
    (processEvent st (.mouseWheel y)).cam.offset_y = st.cam.offset_y ∧
    (0 < y → (processEvent st (.mouseWheel y)).cam.desired_zoom
        = clamp (st.cam.zoom / (41/40)) (1/100000) 100) ∧
    (y < 0 → (processEvent st (.mouseWheel y)).cam.desired_zoom
        = clamp (st.cam.zoom * (41/40)) (1/100000) 100) ∧
    (processEvent (initState 800 600) (.mouseWheel 1)).cam.desired_zoom = 40/41 ∧
    (processEvent (initState 800 600) (.mouseWheel (-1))).cam.desired_zoom = 41/40 := by
  refine ⟨rfl, rfl, rfl, ?_, ?_, ?_, ?_⟩
  · intro hy
    have hy' : ¬(y < 0) := by omega
    simp only [processEvent, if_pos hy, if_neg hy', add_zero]
  · intro hy
    have hy' : ¬(0 < y) := by omega
    simp only [processEvent, if_pos hy, if_neg hy', zero_add]
  · norm_num [processEvent, initState, clamp]
  · norm_num [processEvent, initState, clamp]

/-- C6 witness: the two implications of `scroll_sets_zoom_target`
instantiated at the initial state with wheel deltas `2` and `-2`. -/
theorem scroll_sets_zoom_target_witness :
    (processEvent (initState 800 600) (.mouseWheel 2)).cam.desired_zoom
        = clamp ((initState 800 600).cam.zoom / (41/40)) (1/100000) 100 ∧
      (processEvent (initState 800 600) (.mouseWheel (-2))).cam.desired_zoom
        = clamp ((initState 800 600).cam.zoom * (41/40)) (1/100000) 100 :=
  ⟨(scroll_sets_zoom_target (initState 800 600) 2).2.2.2.1 (by norm_num),
   (scroll_sets_zoom_target (initState 800 600) (-2)).2.2.2.2.1 (by norm_num)⟩

end Mandelbrot

namespace Mandelbrot

/-! ### Dirty-flag propagation lemmas -/

lemma processEvent_dirty {st : LoopState} (e : Event) (h : st.dirty = true) :
    (processEvent st e).dirty = true := by
  cases e with
  | quitSignal => exact h
  | key code pressed => cases code <;> exact h
  | mouseButtonUp b =>
    simp only [processEvent]
    split_ifs <;> exact h
  | windowResized => rfl
  | windowOther => exact h
  | mouseWheel y => exact h
  | other => exact h

lemma processEvents_dirty : ∀ (evs : List Event) {st : LoopState}, st.dirty = true →
    (processEvents st evs).dirty = true
  | [], _, h => h
  | e :: evs, _, h => processEvents_dirty evs (processEvent_dirty e h)

lemma postEventUpdate_dirty (st : LoopState) (dt : ℚ) :
    (postEventUpdate st dt).dirty = st.dirty := by
  unfold postEventUpdate; split_ifs <;> rfl

lemma frame_dirty {st : LoopState} (f : FrameInput) (h : st.dirty = true) :
    ((frame st f).1).dirty = true := by
  simp only [frame]
  rw [postEventUpdate_dirty]
  apply processEvents_dirty
  simp [h]

/-! ### C1 — the dirty flag is never cleared -/

/-- C1: the source contains no `dirty = false`, so once dirty the state stays
dirty through any frame, and in the concrete trace "resize event, then two
event-free frames" every one of the three frames re-applies the viewport —
the second event-free frame does not skip it as the claim requires. -/
theorem viewport_reapplied_every_frame :
    (∀ (st : LoopState) (f : FrameInput), ((frame { st with dirty := true } f).1).dirty = true) ∧
      (run (initState 800 600)
          [⟨0, 800, 600, [Event.windowResized]⟩, ⟨0, 800, 600, []⟩,
           ⟨0, 800, 600, []⟩]).map
        FrameOutput.viewportApplied = [true, true, true] := by
  constructor
  · intro st f
    exact frame_dirty f rfl
  · simp [run, frame, initState, processEvents, processEvent, postEventUpdate, panStep,
      smoothLoop, drainFuel, ft]

/-! ### C4 — quit-requested iterations still update the camera -/

/-- C4 counterexample: from `escapePanState` (escape and up both held,
camera at defaults), one post-event update phase with `dt = 1/60` requests
quit and still moves `offset_y` to `1/200` — the camera is not left
unchanged on a quit-requested iteration. -/
theorem quit_frame_updates_counterexample :
    (postEventUpdate escapePanState (1/60)).quit = true ∧
      ¬((postEventUpdate escapePanState (1/60)).cam = escapePanState.cam) := by
  constructor
  · rfl
  · intro hEq
    have hy : (postEventUpdate escapePanState (1/60)).cam.offset_y
        = escapePanState.cam.offset_y := by rw [hEq]
    norm_num [postEventUpdate, escapePanState, panStep, clamp, drainFuel, ft] at hy

/-- C4 (amended): on an iteration whose event processing left quit requested
(escape held), the loop still transitions to Quitting — `quit` is set and no
further frame is drawn — but pan integration and zoom smoothing are applied
unconditionally in that same iteration: the resulting camera is exactly the
one an escape-free iteration would produce. -/
theorem quit_transition_updates_camera_anyway (st : LoopState) (dt : ℚ)
    (fs : List FrameInput) :
    (postEventUpdate { st with controls := { st.controls with escape := true } } dt).quit
        = true ∧
      (postEventUpdate { st with controls := { st.controls with escape := true } } dt).cam
        = (postEventUpdate { st with controls := { st.controls with escape := false } } dt).cam ∧
      run { st with quit := true } fs = [] :=
  ⟨rfl, rfl, run_of_quit rfl fs⟩

/-! ### C8 — an escape press ends the loop after its own iteration -/

/-- C8: if after the event processing of one frame the escape flag is held,
that same iteration sets `quit`, and the run draws exactly the one frame of
that iteration — no subsequent frame is drawn whatever inputs follow. -/
theorem escape_press_quits (st : LoopState) (f : FrameInput) (fs : List FrameInput)
    (hq : st.quit = false) (he : ((frame st f).1).controls.escape = true) :
    ((frame st f).1).quit = true ∧ run st (f :: fs) = [(frame st f).2] := by
  have hquit : ((frame st f).1).quit = true := by
    simp only [frame] at he ⊢
    rw [postEventUpdate_controls] at he
    exact postEventUpdate_quit_of_escape _ he
  refine ⟨hquit, ?_⟩
  have hrest : run (frame st f).1 fs = [] := run_of_quit hquit fs
  simp only [run, hq, Bool.false_eq_true, if_false, hrest]

/-- C8 witness: from the initial state, a frame whose events are a single
escape press quits after that frame, and a run with one further queued frame
input draws only the first frame. -/
theorem escape_press_quits_witness :
    ((frame (initState 800 600) ⟨0, 800, 600, [Event.key Scancode.escKey true]⟩).1).quit
        = true ∧
      run (initState 800 600)
          [⟨0, 800, 600, [Event.key Scancode.escKey true]⟩, ⟨0, 800, 600, []⟩]
        = [(frame (initState 800 600) ⟨0, 800, 600, [Event.key Scancode.escKey true]⟩).2] :=
  escape_press_quits (initState 800 600) ⟨0, 800, 600, [Event.key Scancode.escKey true]⟩
    [⟨0, 800, 600, []⟩] rfl
    (by simp [frame, initState, processEvents, processEvent, postEventUpdate,
      panStep, smoothLoop, drainFuel, ft])

end Mandelbrot

namespace Mandelbrot

/-! ### Camera-invariant preservation lemmas -/

lemma camInv_processEvent {st : LoopState} (e : Event) (h : CamInv st.cam) :
    CamInv (processEvent st e).cam := by
  cases e with
  | quitSignal => exact h
  | key code pressed => cases code <;> exact h
  | mouseButtonUp b =>
    simp only [processEvent]
    split_ifs with hb
    · exact ⟨by norm_num, by norm_num, by norm_num, by norm_num,
        by norm_num, by norm_num, by norm_num, by norm_num⟩
    · exact h
  | windowResized => exact h
  | windowOther => exact h
  | mouseWheel y =>
    obtain ⟨h1, h2, h3, h4, h5, h6, h7, h8⟩ := h
    exact ⟨h1, h2, le_clamp _ (by norm_num), clamp_le _ (by norm_num), h5, h6, h7, h8⟩
  | other => exact h

lemma camInv_processEvents : ∀ (evs : List Event) {st : LoopState}, CamInv st.cam →
    CamInv (processEvents st evs).cam
  | [], _, h => h
  | e :: evs, _, h => camInv_processEvents evs (camInv_processEvent e h)

lemma camInv_panStep {cam : Camera} (c : Controls) (dt : ℚ) (h : CamInv cam) :
    CamInv (panStep cam c dt) := by
  obtain ⟨h1, h2, h3, h4, h5, h6, h7, h8⟩ := h
  have h16 : (-16 : ℚ) ≤ 16 := by norm_num
  obtain ⟨u, dn, l, r, e⟩ := c
  cases u <;> cases dn <;> cases l <;> cases r <;>
    simp only [panStep, eq_self_iff_true, if_true, Bool.false_eq_true, if_false] <;>
    first
      | exact ⟨h1, h2, h3, h4, h5, h6, h7, h8⟩
      | exact ⟨h1, h2, h3, h4, h5, h6, le_clamp _ h16, clamp_le _ h16⟩
      | exact ⟨h1, h2, h3, h4, le_clamp _ h16, clamp_le _ h16, h7, h8⟩
      | exact ⟨h1, h2, h3, h4, le_clamp _ h16, clamp_le _ h16, le_clamp _ h16, clamp_le _ h16⟩

lemma smoothZoomStep_mem {z d lo hi : ℚ} (hz : lo ≤ z) (hz' : z ≤ hi)
    (hd : lo ≤ d) (hd' : d ≤ hi) :
    lo ≤ smoothZoomStep z d ∧ smoothZoomStep z d ≤ hi := by
  unfold smoothZoomStep ft
  split_ifs <;> constructor <;> linarith

lemma smoothLoop_zoom_mem (n : Nat) : ∀ (acc : ℚ) {z d lo hi : ℚ}, lo ≤ z → z ≤ hi →
    lo ≤ d → d ≤ hi →
    lo ≤ (smoothLoop n z d acc).1 ∧ (smoothLoop n z d acc).1 ≤ hi := by
  induction n with
  | zero => intro acc z d lo hi hz hz' _ _; exact ⟨hz, hz'⟩
  | succ n ih =>
    intro acc z d lo hi hz hz' hd hd'
    simp only [smoothLoop]
    split_ifs
    · obtain ⟨s1, s2⟩ := smoothZoomStep_mem hz hz' hd hd'
      exact ih _ s1 s2 hd hd'
    · exact ⟨hz, hz'⟩

lemma camInv_postEventUpdate {st : LoopState} (dt : ℚ) (h : CamInv st.cam) :
    CamInv (postEventUpdate st dt).cam := by
  obtain ⟨p1, p2, p3, p4, p5, p6, p7, p8⟩ := camInv_panStep st.controls dt h
  obtain ⟨s1, s2⟩ := smoothLoop_zoom_mem (drainFuel st.acc) st.acc p1 p2 p3 p4
  unfold postEventUpdate
  split_ifs <;> exact ⟨s1, s2, p3, p4, p5, p6, p7, p8⟩

lemma camInv_frame {st : LoopState} (f : FrameInput) (h : CamInv st.cam) :
    CamInv ((frame st f).1.cam) := by
  simp only [frame]
  apply camInv_postEventUpdate
  apply camInv_processEvents
  split_ifs <;> exact h

lemma camInv_runState : ∀ (fs : List FrameInput) {st : LoopState}, CamInv st.cam →
    CamInv (runState st fs).cam := by
  intro fs
  induction fs with
  | nil => intro st h; exact h
  | cons f fs ih =>
    intro st h
    simp only [runState]
    split_ifs
    · exact h
    · exact ih (camInv_frame f h)

/-! ### C3 — the camera always stays in its documented ranges -/

/-- C3: starting from the initial camera, after any sequence of frame
updates (each carrying arbitrary events and wall time) and any further
events, `zoom` and `desired_zoom` stay in `[1/100000, 100]` and both pan
offsets stay in `[-16, 16]`. -/
theorem camera_always_clamped (w h : Int) (fs : List FrameInput) (evs : List Event) :
    CamInv (runState (initState w h) fs).cam ∧
      CamInv (processEvents (runState (initState w h) fs) evs).cam := by
  have h0 : CamInv (initState w h).cam := by
    refine ⟨?_, ?_, ?_, ?_, ?_, ?_, ?_, ?_⟩ <;> norm_num [initState]
  exact ⟨camInv_runState fs h0, camInv_processEvents evs (camInv_runState fs h0)⟩

end Mandelbrot

namespace Mandelbrot

/-! ### Zoom-smoothing step lemmas -/

lemma smoothZoomStep_dist_le (z d : ℚ) : |smoothZoomStep z d - d| ≤ |z - d| := by
  unfold smoothZoomStep ft
  split_ifs with h
  · have e : z + 10 * (1/60) * (d - z) - d = 5/6 * (z - d) := by ring
    rw [e, abs_mul]
    have e2 : |(5/6 : ℚ)| = 5/6 := by norm_num
    rw [e2]
    nlinarith [abs_nonneg (z - d)]
  · exact le_refl _

lemma smoothZoomStep_dist_eq (z d : ℚ) (h : 1/100000 < |z - d|) :
    |smoothZoomStep z d - d| = 5/6 * |z - d| := by
  unfold smoothZoomStep ft
  rw [if_pos h]
  have e : z + 10 * (1/60) * (d - z) - d = 5/6 * (z - d) := by ring
  rw [e, abs_mul]
  norm_num

lemma smoothZoomStep_id_of_close {z d : ℚ} (h : ¬(1/100000 < |z - d|)) :
    smoothZoomStep z d = z := by
  unfold smoothZoomStep
  rw [if_neg h]

lemma smoothZoomStep_between_le {z d : ℚ} (h : z ≤ d) :
    z ≤ smoothZoomStep z d ∧ smoothZoomStep z d ≤ d := by
  unfold smoothZoomStep ft
  split_ifs <;> constructor <;> linarith

lemma smoothZoomStep_between_ge {z d : ℚ} (h : d ≤ z) :
    d ≤ smoothZoomStep z d ∧ smoothZoomStep z d ≤ z := by
  unfold smoothZoomStep ft
  split_ifs <;> constructor <;> linarith

lemma smoothIter_le_of_le {z d : ℚ} (h : z ≤ d) : ∀ n, smoothIter z d n ≤ d
  | 0 => h
  | n + 1 => (smoothZoomStep_between_le (smoothIter_le_of_le h n)).2

lemma smoothIter_ge_of_ge {z d : ℚ} (h : d ≤ z) : ∀ n, d ≤ smoothIter z d n
  | 0 => h
  | n + 1 => (smoothZoomStep_between_ge (smoothIter_ge_of_ge h n)).1

lemma smoothIter_dist_bound (z d : ℚ) : ∀ n,
    |smoothIter z d n - d| ≤ max (1/100000) ((5/6)^n * |z - d|) := by
  intro n
  induction n with
  | zero =>
    have e : ((5:ℚ)/6)^0 * |z - d| = |z - d| := by norm_num
    rw [e]
    exact le_max_right _ _
  | succ n ih =>
    by_cases h : 1/100000 < |smoothIter z d n - d|
    · have he : |smoothIter z d (n+1) - d| = 5/6 * |smoothIter z d n - d| :=
        smoothZoomStep_dist_eq (smoothIter z d n) d h
      rw [he]
      have h2 : 5/6 * |smoothIter z d n - d|
          ≤ 5/6 * max (1/100000) ((5/6)^n * |z - d|) := by
        have := mul_le_mul_of_nonneg_left ih (by norm_num : (0:ℚ) ≤ 5/6)
        linarith
      refine le_trans h2 ?_
      rcases le_total ((1:ℚ)/100000) ((5/6)^n * |z - d|) with hc | hc
      · rw [max_eq_right hc]
        have e : (5/6 : ℚ) * ((5/6)^n * |z - d|) = (5/6)^(n+1) * |z - d| := by ring
        rw [e]
        exact le_max_right _ _
      · rw [max_eq_left hc]
        refine le_trans ?_ (le_max_left _ _)
        norm_num
    · have hid : smoothIter z d (n+1) = smoothIter z d n :=
        smoothZoomStep_id_of_close h
      rw [hid]
      exact le_trans (not_lt.mp h) (le_max_left _ _)

lemma smoothIter_shift (z d : ℚ) : ∀ n,
    smoothIter (smoothZoomStep z d) d n = smoothIter z d (n + 1)
  | 0 => rfl
  | n + 1 => by
    show smoothZoomStep (smoothIter (smoothZoomStep z d) d n) d = _
    rw [smoothIter_shift z d n]
    rfl

lemma smoothLoop_eq_smoothIter (d : ℚ) : ∀ (n : Nat) (z acc : ℚ), ft * n ≤ acc →
    smoothLoop n z d acc = (smoothIter z d n, acc - n * ft)
  | 0, z, acc, _ => by
    simp [smoothLoop, smoothIter]
  | n + 1, z, acc, h => by
    have hn : (0:ℚ) ≤ ft * n := by
      have : (0:ℚ) ≤ (n : ℚ) := Nat.cast_nonneg n
      unfold ft
      nlinarith
    have hft : ft ≤ acc := by
      push_cast at h
      unfold ft at h ⊢
      nlinarith
    have hrec : ft * (n : ℚ) ≤ acc - ft := by
      push_cast at h
      linarith
    simp only [smoothLoop, if_pos hft]
    rw [smoothLoop_eq_smoothIter d n (smoothZoomStep z d) (acc - ft) hrec,
      smoothIter_shift]
    push_cast
    refine congrArg _ ?_
    ring

/-! ### C5 — zoom smoothing is monotone and converging -/

/-- C5: across repeated zoom-smoothing steps with a fixed target, the
distance to `desired_zoom` never increases step to step, the zoom moves
monotonically toward the target without overshooting, the distance after `n`
steps is below `max 1e-5 ((5/6)^n · initial distance)`, and a run of `n`
steps of the drain loop consumes exactly `n · ft` of accumulator time. -/
theorem zoom_smoothing_monotone (z d acc : ℚ) (n : Nat) :
    |smoothIter z d (n+1) - d| ≤ |smoothIter z d n - d| ∧
    (z ≤ d → smoothIter z d n ≤ smoothIter z d (n+1) ∧ smoothIter z d n ≤ d) ∧
    (d ≤ z → smoothIter z d (n+1) ≤ smoothIter z d n ∧ d ≤ smoothIter z d n) ∧
    |smoothIter z d n - d| ≤ max (1/100000) ((5/6)^n * |z - d|) ∧
    (ft * n ≤ acc → smoothLoop n z d acc = (smoothIter z d n, acc - n * ft)) := by
  refine ⟨smoothZoomStep_dist_le _ _, ?_, ?_, smoothIter_dist_bound z d n, ?_⟩
  · intro h
    exact ⟨(smoothZoomStep_between_le (smoothIter_le_of_le h n)).1,
      smoothIter_le_of_le h n⟩
  · intro h
    exact ⟨(smoothZoomStep_between_ge (smoothIter_ge_of_ge h n)).2,
      smoothIter_ge_of_ge h n⟩
  · exact smoothLoop_eq_smoothIter d n z acc

/-- C5 witness: the monotone-approach implications and the exact
fixed-step-consumption equation of `zoom_smoothing_monotone`, instantiated
at concrete inputs on both sides of the target. -/
theorem zoom_smoothing_monotone_witness :
    (smoothIter 0 1 1 ≤ smoothIter 0 1 2 ∧ smoothIter 0 1 1 ≤ 1) ∧
    (smoothIter 1 0 2 ≤ smoothIter 1 0 1 ∧ 0 ≤ smoothIter 1 0 1) ∧
    smoothLoop 1 0 1 (1/60) = (smoothIter 0 1 1, 1/60 - 1 * ft) :=
  ⟨(zoom_smoothing_monotone 0 1 0 1).2.1 (by norm_num),
   (zoom_smoothing_monotone 1 0 0 1).2.2.1 (by norm_num),
   (zoom_smoothing_monotone 0 1 (1/60) 1).2.2.2.2 (by norm_num [ft])⟩

end Mandelbrot

namespace Mandelbrot

/-! ### Pan-integration lemmas -/

lemma panStep_up {cam : Camera} {c : Controls} (dt : ℚ)
    (hu : c.up = true) (hd : c.down = false) :
    (panStep cam c dt).offset_y
      = clamp (cam.offset_y + (1/100) * cam.zoom * 30 * dt) (-16) 16 := by
  obtain ⟨u, dn, l, r, e⟩ := c
  dsimp only at hu hd
  subst hu; subst hd
  cases l <;> cases r <;>
    simp only [panStep, eq_self_iff_true, if_true, Bool.false_eq_true, if_false]

lemma panStep_down {cam : Camera} {c : Controls} (dt : ℚ)
    (hd : c.down = true) (hu : c.up = false) :
    (panStep cam c dt).offset_y
      = clamp (cam.offset_y - (1/100) * cam.zoom * 30 * dt) (-16) 16 := by
  obtain ⟨u, dn, l, r, e⟩ := c
  dsimp only at hu hd
  subst hu; subst hd
  cases l <;> cases r <;>
    simp only [panStep, eq_self_iff_true, if_true, Bool.false_eq_true, if_false]

lemma panStep_left {cam : Camera} {c : Controls} (dt : ℚ)
    (hl : c.left = true) (hr : c.right = false) :
    (panStep cam c dt).offset_x
      = clamp (cam.offset_x - (1/100) * cam.zoom * 30 * dt) (-16) 16 := by
  obtain ⟨u, dn, l, r, e⟩ := c
  dsimp only at hl hr
  subst hl; subst hr
  cases u <;> cases dn <;>
    simp only [panStep, eq_self_iff_true, if_true, Bool.false_eq_true, if_false]

lemma panStep_right {cam : Camera} {c : Controls} (dt : ℚ)
    (hr : c.right = true) (hl : c.left = false) :
    (panStep cam c dt).offset_x
      = clamp (cam.offset_x + (1/100) * cam.zoom * 30 * dt) (-16) 16 := by
  obtain ⟨u, dn, l, r, e⟩ := c
  dsimp only at hl hr
  subst hl; subst hr
  cases u <;> cases dn <;>
    simp only [panStep, eq_self_iff_true, if_true, Bool.false_eq_true, if_false]

lemma panStep_no_dir {cam : Camera} {c : Controls} (dt : ℚ)
    (h : noDirectionsHeld c = true) : panStep cam c dt = cam := by
  obtain ⟨u, dn, l, r, e⟩ := c
  simp only [noDirectionsHeld, Bool.and_eq_true, Bool.not_eq_true'] at h
  obtain ⟨⟨⟨hu, hd⟩, hl⟩, hr⟩ := h
  subst hu; subst hd; subst hl; subst hr
  simp only [panStep, Bool.false_eq_true, if_false]

lemma postEventUpdate_offsets (st : LoopState) (dt : ℚ) :
    (postEventUpdate st dt).cam.offset_x = (panStep st.cam st.controls dt).offset_x ∧
      (postEventUpdate st dt).cam.offset_y = (panStep st.cam st.controls dt).offset_y := by
  unfold postEventUpdate
  split_ifs <;> exact ⟨rfl, rfl⟩

lemma postEventUpdate_no_dir {st : LoopState} (dt : ℚ)
    (hc : noDirectionsHeld st.controls = true) :
    (postEventUpdate st dt).cam.offset_x = st.cam.offset_x ∧
      (postEventUpdate st dt).cam.offset_y = st.cam.offset_y := by
  obtain ⟨h1, h2⟩ := postEventUpdate_offsets st dt
  rw [panStep_no_dir dt hc] at h1 h2
  exact ⟨h1, h2⟩

lemma frame_no_dir_no_events {st : LoopState} {f : FrameInput}
    (hc : noDirectionsHeld st.controls = true) (he : f.events = []) :
    (frame st f).1.cam.offset_x = st.cam.offset_x ∧
      (frame st f).1.cam.offset_y = st.cam.offset_y ∧
      (frame st f).1.controls = st.controls := by
  simp only [frame, he, processEvents, List.foldl_nil]
  split_ifs <;>
    refine ⟨(postEventUpdate_no_dir f.dt ?_).1, (postEventUpdate_no_dir f.dt ?_).2,
      postEventUpdate_controls _ f.dt⟩ <;> exact hc

lemma runState_no_dir : ∀ (fs : List FrameInput) {st : LoopState},
    noDirectionsHeld st.controls = true → framesEventFree fs = true →
    (runState st fs).cam.offset_x = st.cam.offset_x ∧
      (runState st fs).cam.offset_y = st.cam.offset_y := by
  intro fs
  induction fs with
  | nil => intro st _ _; exact ⟨rfl, rfl⟩
  | cons f fs ih =>
    intro st hc hf
    simp only [framesEventFree, List.all_cons, Bool.and_eq_true] at hf
    obtain ⟨hfe, hrest⟩ := hf
    have he : f.events = [] := by
      cases hev : f.events with
      | nil => rfl
      | cons a evs => rw [hev] at hfe; simp [List.isEmpty] at hfe
    simp only [runState]
    split_ifs
    · exact ⟨rfl, rfl⟩
    · obtain ⟨hx, hy, hctrl⟩ := frame_no_dir_no_events hc he
      have hc' : noDirectionsHeld ((frame st f).1).controls = true := by
        rw [hctrl]; exact hc
      obtain ⟨ihx, ihy⟩ := ih hc' hrest
      exact ⟨ihx.trans hx, ihy.trans hy⟩

/-! ### C9 — per-flag pan integration, and no-key invariance -/

/-- C9: with a directional flag held (and its opposite not held), the pan
phase moves the corresponding offset by `0.01 · zoom · 30 · dt` in the sign
of that flag and clamps the result to `[-16, 16]`; and from a state with no
directional flag held, any number of event-free frame updates leaves both
pan offsets unchanged. -/
theorem pan_integration_per_flag (cam : Camera) (c : Controls) (dt : ℚ)
    (st : LoopState) (fs : List FrameInput) :
    (c.up = true → c.down = false →
      (panStep cam c dt).offset_y
        = clamp (cam.offset_y + (1/100) * cam.zoom * 30 * dt) (-16) 16) ∧
    (c.down = true → c.up = false →
      (panStep cam c dt).offset_y
        = clamp (cam.offset_y - (1/100) * cam.zoom * 30 * dt) (-16) 16) ∧
    (c.left = true → c.right = false →
      (panStep cam c dt).offset_x
        = clamp (cam.offset_x - (1/100) * cam.zoom * 30 * dt) (-16) 16) ∧
    (c.right = true → c.left = false →
      (panStep cam c dt).offset_x
        = clamp (cam.offset_x + (1/100) * cam.zoom * 30 * dt) (-16) 16) ∧
    (noDirectionsHeld st.controls = true → framesEventFree fs = true →
      (runState st fs).cam.offset_x = st.cam.offset_x ∧
        (runState st fs).cam.offset_y = st.cam.offset_y) :=
  ⟨fun hu hd => panStep_up dt hu hd,
   fun hd hu => panStep_down dt hd hu,
   fun hl hr => panStep_left dt hl hr,
   fun hr hl => panStep_right dt hr hl,
   fun hc hf => runState_no_dir fs hc hf⟩

/-- C9 witness: the up-flag pan formula at a concrete camera and `dt`, and
offset invariance across one event-free frame from the initial state. -/
theorem pan_integration_per_flag_witness :
    (panStep { zoom := 1, desired_zoom := 1, offset_x := 0, offset_y := 0 }
        { up := true, down := false, left := false, right := false, escape := false }
        (1/60)).offset_y
      = clamp ((0:ℚ) + (1/100) * 1 * 30 * (1/60)) (-16) 16 ∧
    (runState (initState 800 600) [⟨5, 800, 600, []⟩]).cam.offset_x
        = (initState 800 600).cam.offset_x ∧
      (runState (initState 800 600) [⟨5, 800, 600, []⟩]).cam.offset_y
        = (initState 800 600).cam.offset_y :=
  ⟨(pan_integration_per_flag ⟨1, 1, 0, 0⟩ ⟨true, false, false, false, false⟩ (1/60)
      (initState 800 600) [⟨5, 800, 600, []⟩]).1 rfl rfl,
   (pan_integration_per_flag ⟨1, 1, 0, 0⟩ ⟨true, false, false, false, false⟩ (1/60)
      (initState 800 600) [⟨5, 800, 600, []⟩]).2.2.2.2 rfl rfl⟩

end Mandelbrot
